import Mathlib

/-!
Verification of the backyard-builder-finder parcel-qualification pipeline

Shallow embedding of the core pipeline of the repository:

* `src/packages/shared/src/geometry.ts` — pure geometry primitives
  (`calculatePolygonArea`, `getBoundingBox`, `geometriesIntersect`,
  `calculateIoU`);
* `src/apps/api/src/services/searchService.ts` — the `SearchService`
  orchestrator (`executeSearch`, `executeSQLFiltering`,
  `calculateRearYardsInBatches`, `executeCVAnalysis`, `identifyEdgeCases`,
  `executeLLMAnalysis`, `prioritizeEdgeCases`);
* `src/unnamed/part_002` — the PostGIS function
  `estimate_rear_yard_free_area` (its final clamping step).

JavaScript numbers are modelled by `ℚ` (all constants appearing in the
claims are exactly representable as doubles, and the refuting inputs are
chosen so that the JS computation is exact, so no rounding question
arises at any point used by a theorem). `Math.abs`, `Math.min` and
`Math.max` are modelled by explicit conditionals `mathAbs`, `mathMin`,
`mathMax`. External I/O (Supabase queries, the CV service, the LLM
service, the Regrid fetch) is modelled by explicit oracle parameters and
outcome fields in an environment record; the side effects of a run
(progress events, external calls, rows written) are returned as explicit
lists. Human-readable message strings carried by progress events are
elided: no claim mentions them.
-/

namespace BackyardBuilder

/-- Model of `Math.abs` on JS numbers. -/
def mathAbs (x : ℚ) : ℚ := if x < 0 then -x else x

/-- Model of `Math.min` on JS numbers. -/
def mathMin (x y : ℚ) : ℚ := if x ≤ y then x else y

/-- Model of `Math.max` on JS numbers. -/
def mathMax (x y : ℚ) : ℚ := if x ≤ y then y else x

theorem mathAbs_eq_abs (x : ℚ) : mathAbs x = |x| := by
  unfold mathAbs
  rcases lt_or_le x 0 with h | h
  · rw [if_pos h, abs_of_neg h]
  · rw [if_neg (not_lt.mpr h), abs_of_nonneg h]

theorem mathMin_eq_min (x y : ℚ) : mathMin x y = min x y := by
  unfold mathMin
  rcases le_or_lt x y with h | h
  · rw [if_pos h, min_eq_left h]
  · rw [if_neg (not_le.mpr h), min_eq_right h.le]

theorem mathMax_eq_max (x y : ℚ) : mathMax x y = max x y := by
  unfold mathMax
  rcases le_or_lt x y with h | h
  · rw [if_pos h, max_eq_right h]
  · rw [if_neg (not_le.mpr h), max_eq_left h.le]

/-! Geometry layer (`src/packages/shared/src/geometry.ts`).

A polygon's exterior ring (`geometry.coordinates[0]`) is a list of
`(lng, lat)` pairs. -/

/-- The fixed degrees→feet conversion factor squared, `364000 * 364000`,
used by both `calculatePolygonArea` and `calculateIoU`. -/
def DEG2FT2 : ℚ := 364000 * 364000

/-- The shoelace accumulation loop of `calculatePolygonArea`
(geometry.ts lines 14-18): `area += x1*y2 - x2*y1` over consecutive
vertex pairs (no implicit wrap-around; rings are stored closed). -/
def shoelaceSum : List (ℚ × ℚ) → ℚ
  | [] => 0
  | [_] => 0
  | (x1, y1) :: (x2, y2) :: rest =>
      (x1 * y2 - x2 * y1) + shoelaceSum ((x2, y2) :: rest)

/-- Model of `calculatePolygonArea` (geometry.ts lines 6-26) on the exterior ring:
`Math.abs(area) / 2 * 364000 * 364000`. -/
def calculatePolygonArea (ring : List (ℚ × ℚ)) : ℚ :=
  mathAbs (shoelaceSum ring) / 2 * DEG2FT2

/-- Axis-aligned bounding box, as computed by `getBoundingBox`
(geometry.ts lines 115-138). -/
structure BBox where
  minLng : ℚ
  maxLng : ℚ
  minLat : ℚ
  maxLat : ℚ
  deriving Repr, DecidableEq

/-- One visit of `processCoords` in `getBoundingBox`. -/
def bboxStep (b : BBox) (p : ℚ × ℚ) : BBox :=
  ⟨mathMin b.minLng p.1, mathMax b.maxLng p.1,
   mathMin b.minLat p.2, mathMax b.maxLat p.2⟩

/-- Model of `getBoundingBox` (geometry.ts lines 115-138) restricted to a single
ring. The JS version starts from `±Infinity`; over `ℚ` the empty ring is
mapped to `none` instead, and every consumer below treats `none` exactly
as the JS infinities behave (an empty geometry overlaps nothing). -/
def getBoundingBox : List (ℚ × ℚ) → Option BBox
  | [] => none
  | c :: cs => some (cs.foldl bboxStep ⟨c.1, c.1, c.2, c.2⟩)

/-- The bounding-box overlap test of `geometriesIntersect`
(geometry.ts lines 104-109). -/
def bboxOverlap (b1 b2 : BBox) : Bool :=
  !(decide (b1.maxLng < b2.minLng) || decide (b2.maxLng < b1.minLng) ||
    decide (b1.maxLat < b2.minLat) || decide (b2.maxLat < b1.minLat))

/-- Model of `geometriesIntersect` (geometry.ts lines 99-110). With an empty ring
the JS code compares against infinities and always reports no overlap,
which the `none` branches reproduce. -/
def geometriesIntersect (g1 g2 : List (ℚ × ℚ)) : Bool :=
  match getBoundingBox g1, getBoundingBox g2 with
  | some b1, some b2 => bboxOverlap b1 b2
  | _, _ => false

/-- Model of `calculateIoU` (geometry.ts lines 143-166): 0 when bounding boxes do
not overlap, otherwise bounding-box intersection area (in feet²) over
`area1 + area2 - intersectionArea`, guarded by `unionArea > 0`. -/
def calculateIoU (g1 g2 : List (ℚ × ℚ)) : ℚ :=
  if !geometriesIntersect g1 g2 then 0
  else
    match getBoundingBox g1, getBoundingBox g2 with
    | some b1, some b2 =>
        let area1 := calculatePolygonArea g1
        let area2 := calculatePolygonArea g2
        let interArea :=
          mathMax 0 (mathMin b1.maxLng b2.maxLng - mathMax b1.minLng b2.minLng) *
          mathMax 0 (mathMin b1.maxLat b2.maxLat - mathMax b1.minLat b2.minLat) *
          DEG2FT2
        let unionArea := area1 + area2 - interArea
        if 0 < unionArea then interArea / unionArea else 0
    | _, _ => 0

/-! Helper lemmas for the geometry theorems. -/

/-- The cross term of the shoelace loop. -/
def cross (p q : ℚ × ℚ) : ℚ := p.1 * q.2 - q.1 * p.2

theorem cross_antisymm (p q : ℚ × ℚ) : cross p q = -cross q p := by
  unfold cross; ring

theorem shoelaceSum_cons_cons (p q : ℚ × ℚ) (l : List (ℚ × ℚ)) :
    shoelaceSum (p :: q :: l) = cross p q + shoelaceSum (q :: l) := by
  cases p; cases q; rfl

theorem shoelaceSum_append_singleton (l : List (ℚ × ℚ)) (a b : ℚ × ℚ)
    (hlast : l.getLast? = some a) :
    shoelaceSum (l ++ [b]) = shoelaceSum l + cross a b := by
  induction l with
  | nil => simp at hlast
  | cons p t ih =>
      cases t with
      | nil =>
          simp [List.getLast?] at hlast
          subst hlast
          simp [shoelaceSum_cons_cons, shoelaceSum, cross]
      | cons q t' =>
          have hlast' : (q :: t').getLast? = some a := by
            simpa [List.getLast?_cons_cons] using hlast
          have := ih hlast'
          simp only [List.cons_append, shoelaceSum_cons_cons] at *
          rw [this]; ring

theorem getLast?_reverse_eq_head? (l : List (ℚ × ℚ)) :
    l.reverse.getLast? = l.head? := by
  cases l with
  | nil => rfl
  | cons a t => simp

theorem shoelaceSum_reverse (l : List (ℚ × ℚ)) :
    shoelaceSum l.reverse = -shoelaceSum l := by
  induction l with
  | nil => simp [shoelaceSum]
  | cons p t ih =>
      cases t with
      | nil => simp [shoelaceSum]
      | cons q t' =>
          have hrev : (p :: q :: t').reverse = (q :: t').reverse ++ [p] := by
            simp
          have hlast : (q :: t').reverse.getLast? = some q := by
            rw [getLast?_reverse_eq_head?]; rfl
          rw [hrev, shoelaceSum_append_singleton _ _ _ hlast, ih,
            shoelaceSum_cons_cons, cross_antisymm]
          ring

/-- C9: for every polygon ring P, `calculatePolygonArea P` is non-negative,
and the area is invariant under reversing the vertex order of the ring. -/
theorem claim_C9 (ring : List (ℚ × ℚ)) :
    0 ≤ calculatePolygonArea ring ∧
      calculatePolygonArea ring.reverse = calculatePolygonArea ring := by
  constructor
  · unfold calculatePolygonArea DEG2FT2
    rw [mathAbs_eq_abs]
    positivity
  · unfold calculatePolygonArea
    rw [mathAbs_eq_abs, mathAbs_eq_abs, shoelaceSum_reverse, abs_neg]

/-- The fold step of `getBoundingBox` keeps `min* ≤ max*`. -/
theorem foldl_bbox_wf (l : List (ℚ × ℚ)) (b : BBox)
    (h1 : b.minLng ≤ b.maxLng) (h2 : b.minLat ≤ b.maxLat) :
    (l.foldl bboxStep b).minLng ≤ (l.foldl bboxStep b).maxLng ∧
      (l.foldl bboxStep b).minLat ≤ (l.foldl bboxStep b).maxLat := by
  induction l generalizing b with
  | nil => exact ⟨h1, h2⟩
  | cons p t ih =>
      refine ih _ ?_ ?_ <;>
        simp only [bboxStep, mathMin_eq_min, mathMax_eq_max]
      · exact le_trans (min_le_left _ _) (le_trans h1 (le_max_left _ _))
      · exact le_trans (min_le_left _ _) (le_trans h2 (le_max_left _ _))

/-- Any bounding box produced by `getBoundingBox` has `min* ≤ max*`. -/
theorem getBoundingBox_wf (g : List (ℚ × ℚ)) (b : BBox)
    (hb : getBoundingBox g = some b) :
    b.minLng ≤ b.maxLng ∧ b.minLat ≤ b.maxLat := by
  cases g with
  | nil => simp [getBoundingBox] at hb
  | cons c cs =>
      simp only [getBoundingBox, Option.some_inj] at hb
      subst hb
      exact foldl_bbox_wf cs ⟨c.1, c.1, c.2, c.2⟩ le_rfl le_rfl

/-- A closed right triangle whose shoelace area is half of its bounding-box
area; all intermediate JS arithmetic on it is exact in doubles. -/
def triRing : List (ℚ × ℚ) := [(0, 0), (1, 0), (0, 1), (0, 0)]

/-- C8 counterexample: for the valid (closed, non-degenerate, positive-area)
triangle `triRing`, `calculateIoU triRing triRing` is `0`, not `1` — the
bounding-box intersection area (1·DEG2FT2) exceeds the triangle's true area
(DEG2FT2/2), making `unionArea = 0`, so the `unionArea > 0` guard returns 0.
The exact JS double computation returns 0 as well, so no floating-point
tolerance saves the claim. -/
theorem claim_C8_counterexample :
    0 < calculatePolygonArea triRing ∧
      calculateIoU triRing triRing = 0 ∧ calculateIoU triRing triRing ≠ 1 := by
  have hshoe : shoelaceSum triRing = 1 := by
    norm_num [triRing, shoelaceSum]
  have harea : calculatePolygonArea triRing = DEG2FT2 / 2 := by
    rw [calculatePolygonArea, hshoe]
    norm_num [mathAbs]
    ring
  have hbb : getBoundingBox triRing = some ⟨0, 1, 0, 1⟩ := by
    norm_num [triRing, getBoundingBox, bboxStep, mathMin, mathMax]
  have hiou : calculateIoU triRing triRing = 0 := by
    unfold calculateIoU geometriesIntersect
    rw [hbb]
    norm_num [bboxOverlap, harea, mathMin, mathMax, DEG2FT2]
  refine ⟨?_, hiou, by rw [hiou]; norm_num⟩
  rw [harea]
  norm_num [DEG2FT2]

/-- C8 (amended): `intersectionOverUnion(P, P) = 1` holds for the polygons
whose shoelace area equals their bounding-box area scaled by the conversion
constant (e.g. axis-aligned rectangles), provided that area is positive; for
other valid polygons the self-IoU can differ from 1 (and even be 0, see the
counterexample). -/
theorem claim_C8_amended (g : List (ℚ × ℚ)) (b : BBox)
    (hb : getBoundingBox g = some b)
    (harea : calculatePolygonArea g =
      (b.maxLng - b.minLng) * (b.maxLat - b.minLat) * DEG2FT2)
    (hpos : 0 < calculatePolygonArea g) :
    calculateIoU g g = 1 := by
  have hwf := getBoundingBox_wf g b hb
  have hover : bboxOverlap b b = true := by
    simp [bboxOverlap, not_lt.mpr hwf.1, not_lt.mpr hwf.2]
  unfold calculateIoU geometriesIntersect
  rw [hb]
  simp only [hover, Bool.not_true, Bool.false_eq_true, if_false]
  rw [mathMin_eq_min, mathMin_eq_min, mathMax_eq_max, mathMax_eq_max,
    mathMax_eq_max, mathMax_eq_max, min_self, min_self, max_self, max_self,
    max_eq_right (sub_nonneg.mpr hwf.1), max_eq_right (sub_nonneg.mpr hwf.2)]
  rw [← harea]
  have hsum : calculatePolygonArea g + calculatePolygonArea g -
      calculatePolygonArea g = calculatePolygonArea g := by ring
  rw [hsum, if_pos hpos, div_self (ne_of_gt hpos)]

/-- C8 amended witness: the unit square satisfies the hypotheses and has
self-IoU exactly 1. -/
theorem claim_C8_amended_witness :
    calculateIoU [((0 : ℚ), (0 : ℚ)), (1, 0), (1, 1), (0, 1), (0, 0)]
      [((0 : ℚ), (0 : ℚ)), (1, 0), (1, 1), (0, 1), (0, 0)] = 1 :=
  claim_C8_amended [((0 : ℚ), (0 : ℚ)), (1, 0), (1, 1), (0, 1), (0, 0)]
    ⟨0, 1, 0, 1⟩
    (by norm_num [getBoundingBox, bboxStep, mathMin, mathMax])
    (by norm_num [calculatePolygonArea, shoelaceSum, mathAbs, DEG2FT2])
    (by norm_num [calculatePolygonArea, shoelaceSum, mathAbs, DEG2FT2])

/-! Data model of the search pipeline (`searchService.ts`). -/

/-- Model of `SearchRequest['filters']` restricted to the two fields the modelled
stages consult: `minRearSqft` (required) and `hasPool` (optional tri-state,
`none` = the JS `undefined`). The remaining attribute filters are applied
inside the store query (`applyFilters`) and never re-read afterwards. -/
structure Filters where
  minRearSqft : ℚ
  hasPool : Option Bool := none
  deriving Repr, DecidableEq

/-- A parcel row as returned by the `parcels` store query, before the
rear-yard stage: `stored_rear` is the nullable `rear_free_sqft` column
(`none` = SQL NULL / JS undefined), `has_pool` the nullable tri-state flag.
Attribute fields never consulted by the modelled stages are omitted. -/
structure StoredParcel where
  id : ℕ
  stored_rear : Option ℚ := none
  has_pool : Option Bool := none
  deriving Repr, DecidableEq

/-- Model of `ParcelWithRearYard` (searchService.ts lines 8-23), restricted to the
fields the claims consult. -/
structure ParcelRec where
  id : ℕ
  rear_free_sqft : ℚ
  rear_yard_approximate : Bool
  has_pool : Option Bool := none
  deriving Repr, DecidableEq

/-- The row shape returned by the `estimate_rear_yard_free_area` RPC:
`{free_sqft, approximate}`. -/
structure EstimateResult where
  free_sqft : ℚ
  approximate : Bool
  deriving Repr, DecidableEq

/-! RearYardEstimator (`src/unnamed/part_002`).

The geometric body of `estimate_rear_yard_free_area` is built from PostGIS
built-ins (`ST_Difference`, `ST_Buffer`, `ST_Area`, …) that live in the
PostGIS library, not in this repository; the function is therefore
parameterized by the raw area that computation yields (`none` models SQL
NULL) together with the `is_approximate` flag accumulated by the fallback
branches. The claims under verification concern only the final clamping
step (part_002 lines 121-131), which is embedded verbatim. -/

/-- Lines 121-131 of `estimate_rear_yard_free_area`:
`IF final_area IS NULL OR final_area < 0 THEN final_area := 0;
is_approximate := TRUE; END IF; RETURN QUERY SELECT final_area,
is_approximate;`. -/
def clampEstimate (raw : Option ℚ) (approx : Bool) : EstimateResult :=
  match raw with
  | none => ⟨0, true⟩
  | some a => if a < 0 then ⟨0, true⟩ else ⟨a, approx⟩

/-! Rear-yard stage (`calculateRearYardsInBatches`, lines 173-226). -/

/-- JS `x || d` on numbers (`rearYardResult?.free_sqft || 0`): a falsy `0`
falls through to the default. -/
def jsOrQ (v d : ℚ) : ℚ := if v = 0 then d else v

/-- JS `b || d` on booleans (`rearYardResult?.approximate || true`). -/
def jsOrB (v d : Bool) : Bool := v || d

/-- Outcome of one `estimate_rear_yard_free_area` RPC call as observed by
`calculateRearYardsInBatches`: the call can throw, resolve with a null
`data`, or resolve with a row. -/
inductive RpcOutcome where
  | throws
  | nullRow
  | row (r : EstimateResult)
  deriving Repr, DecidableEq

/-- The per-parcel closure of `calculateRearYardsInBatches`
(searchService.ts lines 182-217): reuse a stored value with
`rear_yard_approximate = false`; otherwise call the RPC, mapping its
outcome through `?.field || default` (note `approximate || true` is
always `true`), and on a thrown error fall back to `{0, true}`. -/
def computeRearYard (parcel : StoredParcel) (rpc : RpcOutcome) : ParcelRec :=
  match parcel.stored_rear with
  | some v => ⟨parcel.id, v, false, parcel.has_pool⟩
  | none =>
      match rpc with
      | .throws => ⟨parcel.id, 0, true, parcel.has_pool⟩
      | .nullRow => ⟨parcel.id, 0, true, parcel.has_pool⟩
      | .row r =>
          ⟨parcel.id, jsOrQ r.free_sqft 0, jsOrB r.approximate true,
            parcel.has_pool⟩

/-- The `parcels.slice(i, i + BATCH_SIZE)` grouping of the batch loops. -/
def chunksOf (n : ℕ) : List α → List (List α)
  | [] => []
  | a :: l => (a :: l.take (n - 1)) :: chunksOf n (l.drop (n - 1))
  termination_by l => l.length
  decreasing_by
    simp only [List.length_drop, List.length_cons]
    omega

/-- The `results` accumulation of `calculateRearYardsInBatches`
(lines 177-222): batches of 10, each batch mapped through the per-parcel
computation, appended in order. The oracle `rpc` gives each parcel's RPC
outcome; batch-internal concurrency is irrelevant because results are
collected positionally by `Promise.all`. -/
def rearYardResults (parcels : List StoredParcel) (rpc : ℕ → RpcOutcome) :
    List ParcelRec :=
  (chunksOf 10 parcels).foldl
    (fun acc batch => acc ++ batch.map (fun p => computeRearYard p (rpc p.id)))
    []

/-- Model of `calculateRearYardsInBatches` (lines 173-226): compute a record for
every parcel, then apply the `minRearSqft` filter once on the final list
(line 225). -/
def calculateRearYardsInBatches (parcels : List StoredParcel)
    (rpc : ℕ → RpcOutcome) (minRearSqft : ℚ) : List ParcelRec :=
  (rearYardResults parcels rpc).filter
    (fun p => decide (minRearSqft ≤ p.rear_free_sqft))

theorem chunksOf_flatten (n : ℕ) (l : List α) : (chunksOf n l).flatten = l := by
  generalize h : l.length = k
  induction k using Nat.strong_induction_on generalizing l with
  | _ k ih =>
      cases l with
      | nil => simp [chunksOf]
      | cons a t =>
          rw [chunksOf, List.flatten_cons,
            show (chunksOf n (t.drop (n - 1))).flatten = t.drop (n - 1) from
              ih (t.drop (n - 1)).length
                (by subst h; simp only [List.length_drop, List.length_cons]; omega)
                _ rfl]
          simp [List.take_append_drop]

theorem foldl_append_map (f : α → β) (L : List (List α)) (acc : List β) :
    L.foldl (fun acc batch => acc ++ batch.map f) acc = acc ++ L.flatten.map f := by
  induction L generalizing acc with
  | nil => simp
  | cons b L ih => simp [ih, List.map_append, List.append_assoc]

/-- Batching in groups of 10 computes exactly one record per input parcel,
in input order. -/
theorem rearYardResults_eq_map (parcels : List StoredParcel)
    (rpc : ℕ → RpcOutcome) :
    rearYardResults parcels rpc =
      parcels.map (fun p => computeRearYard p (rpc p.id)) := by
  unfold rearYardResults
  rw [foldl_append_map]
  rw [chunksOf_flatten]
  simp

/-- C2: the rear-yard stage computes a record for every candidate (the
pre-filter list is exactly a per-parcel map of the input — no candidate is
dropped during per-parcel computation, whatever each RPC call does), and
the stage's returned set is exactly the computed records whose
`rear_free_sqft` is ≥ `filters.minRearSqft`, the filter being applied once
on the final list. -/
theorem claim_C2 (parcels : List StoredParcel) (rpc : ℕ → RpcOutcome)
    (minRearSqft : ℚ) :
    rearYardResults parcels rpc =
      parcels.map (fun p => computeRearYard p (rpc p.id)) ∧
    (rearYardResults parcels rpc).length = parcels.length ∧
    calculateRearYardsInBatches parcels rpc minRearSqft =
      (parcels.map (fun p => computeRearYard p (rpc p.id))).filter
        (fun p => decide (minRearSqft ≤ p.rear_free_sqft)) := by
  refine ⟨rearYardResults_eq_map parcels rpc, ?_, ?_⟩
  · rw [rearYardResults_eq_map]; simp
  · unfold calculateRearYardsInBatches
    rw [rearYardResults_eq_map]

/-- C6: the estimator's clamp makes `free_sqft` non-negative; a NULL or
negative computed area yields exactly `{0, approximate := true}`; the TS
caller maps a thrown RPC call to exactly `{0, true}`; and a fresh
computation fed from the clamped estimator is never negative. -/
theorem claim_C6 (raw : Option ℚ) (approx : Bool) (p : StoredParcel)
    (hp : p.stored_rear = none) :
    0 ≤ (clampEstimate raw approx).free_sqft ∧
    ((raw = none ∨ ∃ a, raw = some a ∧ a < 0) →
      clampEstimate raw approx = ⟨0, true⟩) ∧
    computeRearYard p .throws = ⟨p.id, 0, true, p.has_pool⟩ ∧
    0 ≤ (computeRearYard p (.row (clampEstimate raw approx))).rear_free_sqft := by
  have hnonneg : 0 ≤ (clampEstimate raw approx).free_sqft := by
    cases raw with
    | none => simp [clampEstimate]
    | some a =>
        rcases lt_or_le a 0 with ha | ha
        · simp [clampEstimate, ha]
        · simp only [clampEstimate, if_neg (not_lt.mpr ha)]
          exact ha
  refine ⟨hnonneg, ?_, ?_, ?_⟩
  · rintro (h | ⟨a, ha, haneg⟩)
    · subst h; rfl
    · subst ha; simp [clampEstimate, haneg]
  · simp [computeRearYard, hp]
  · simp only [computeRearYard, hp, jsOrQ]
    by_cases hz : (clampEstimate raw approx).free_sqft = 0
    · rw [if_pos hz]
    · rw [if_neg hz]; exact hnonneg

/-- C6 witness: a negative raw area with a non-approximate flag, and a
parcel with no stored value. -/
theorem claim_C6_witness :
    0 ≤ (clampEstimate (some (-5)) false).free_sqft ∧
    ((some (-5) = (none : Option ℚ) ∨
        ∃ a, (some (-5) : Option ℚ) = some a ∧ a < 0) →
      clampEstimate (some (-5)) false = ⟨0, true⟩) ∧
    computeRearYard ⟨7, none, none⟩ .throws = ⟨7, 0, true, none⟩ ∧
    0 ≤ (computeRearYard ⟨7, none, none⟩
          (.row (clampEstimate (some (-5)) false))).rear_free_sqft :=
  claim_C6 (some (-5)) false ⟨7, none, none⟩ rfl

/-- C10: the `rear_yard_approximate` flag of the rear-yard stage records
exactly the value's provenance — `false` iff the value was reused from
storage, `true` for every freshly computed (or failed) value, even when the
estimator reports `approximate = false` (the JS `|| true` forces it). -/
theorem claim_C10 (p : StoredParcel) (rpc : RpcOutcome) :
    (computeRearYard p rpc).rear_yard_approximate =
      decide (p.stored_rear = none) := by
  rcases p with ⟨pid, sr, hp⟩
  cases sr <;> cases rpc <;> simp [computeRearYard, jsOrB]

/-! EdgeCaseClassifier (`identifyEdgeCases`, lines 309-331). -/

/-- The predicate of `identifyEdgeCases` (lines 313-330). The JS guard
`parcel.rear_free_sqft && …` is a truthiness test: the near-threshold
branch runs only when `rear_free_sqft ≠ 0`. The pool branch fires when
`filters.hasPool` is defined and the parcel's (nullable) `has_pool`
differs from it. The JS literal `0.1` is modelled by `1/10`: the two
differ by < 2⁻⁵⁳ relatively and no claim distinguishes them. -/
def isEdgeCase (filters : Filters) (p : ParcelRec) : Bool :=
  (decide (p.rear_free_sqft ≠ 0) &&
     decide (mathAbs (p.rear_free_sqft - filters.minRearSqft) ≤
       filters.minRearSqft * (1 / 10))) ||
  p.rear_yard_approximate ||
  (match filters.hasPool with
   | none => false
   | some b => decide (p.has_pool ≠ some b))

/-- Model of `identifyEdgeCases` (lines 309-331). -/
def identifyEdgeCases (parcels : List ParcelRec) (filters : Filters) :
    List ParcelRec :=
  parcels.filter (isEdgeCase filters)

/-- C4 counterexample: with `minRearSqft = 0` (allowed: the threshold
invariant only requires ≥ 0) a parcel whose rear-yard area exactly equals
the threshold, is not approximate, and has no pool conflict is **not**
classified as an edge case — the JS truthiness guard
`parcel.rear_free_sqft &&` skips the near-threshold branch when the area
is `0`. -/
theorem claim_C4_counterexample :
    (⟨1, 0, false, none⟩ : ParcelRec).rear_free_sqft =
        (⟨0, none⟩ : Filters).minRearSqft ∧
    (0 : ℚ) ≤ (⟨0, none⟩ : Filters).minRearSqft ∧
    identifyEdgeCases [⟨1, 0, false, none⟩] ⟨0, none⟩ = [] := by
  refine ⟨rfl, le_rfl, ?_⟩
  simp [identifyEdgeCases, isEdgeCase, List.filter]

/-- C4 (amended): for every parcel whose computed rear-yard area exactly
equals a **positive** threshold, the classifier flags it as an edge case
regardless of its approximate flag or pool status; at threshold `0` the
truthiness guard excludes the area-0 parcel from the near-threshold branch
(see the counterexample). -/
theorem claim_C4_amended (parcels : List ParcelRec) (filters : Filters)
    (p : ParcelRec) (hmem : p ∈ parcels)
    (heq : p.rear_free_sqft = filters.minRearSqft)
    (hpos : 0 < filters.minRearSqft) :
    p ∈ identifyEdgeCases parcels filters := by
  refine List.mem_filter.mpr ⟨hmem, ?_⟩
  simp only [isEdgeCase, Bool.or_eq_true, Bool.and_eq_true, decide_eq_true_eq]
  left; left
  constructor
  · rw [heq]; exact ne_of_gt hpos
  · rw [heq, sub_self]
    have h0 : mathAbs 0 = 0 := by simp [mathAbs]
    rw [h0]
    positivity

/-- C4 amended witness: a non-approximate, pool-free parcel exactly at a
positive threshold is classified as an edge case. -/
theorem claim_C4_amended_witness :
    (⟨1, 500, false, none⟩ : ParcelRec) ∈
      identifyEdgeCases [⟨1, 500, false, none⟩] ⟨500, none⟩ :=
  claim_C4_amended [⟨1, 500, false, none⟩] ⟨500, none⟩ ⟨1, 500, false, none⟩
    (by simp) rfl (by norm_num)

/-! Progress snapshots (`SearchProgress`). -/

/-- The stage enumeration of `SearchProgress` snapshots emitted by
`executeSearch`. (`starting` is only ever set by the route before the
service runs and is not emitted inside `executeSearch`, so it is not
modelled.) -/
inductive Stage where
  | sql_filter
  | cv_analysis
  | llm_analysis
  | complete
  | error
  deriving Repr, DecidableEq

/-- One `onProgress` snapshot. The human-readable `message` is elided
(no claim mentions it); an `error` snapshot is tagged by `hasError`
instead of carrying the message text. -/
structure Progress where
  stage : Stage
  processed : ℕ
  total : ℕ
  results : Option (List ParcelRec) := none
  hasError : Bool := false
  deriving Repr, DecidableEq

/-! The cv_analysis stage (`executeCVAnalysis`, lines 228-292). -/

/-- A `cv_detections` row as consulted by the cache query of lines
239-244 (`created_at` in milliseconds since epoch). -/
structure Detection where
  parcel_id : ℕ
  kind : String
  confidence : ℚ
  created_at : ℤ
  deriving Repr, DecidableEq

/-- The TTL window `CACHE_TTL_DAYS * 24 * 60 * 60 * 1000` (line 244). -/
def CACHE_TTL_MS : ℤ := 7 * 24 * 60 * 60 * 1000

/-- The cache query of lines 239-244: detections for the given parcels, of
kind "pool", created within the TTL window ending at `now`. -/
def cachedDetections (store : List Detection) (ids : List ℕ) (now : ℤ) :
    List Detection :=
  store.filter (fun d =>
    ids.contains d.parcel_id && d.kind == "pool" &&
      decide (now - CACHE_TTL_MS ≤ d.created_at))

/-- The `detectionMap` of lines 246-248: a JS `Map` built from the cached
rows, keyed by parcel, valued `confidence > 0.5`; on duplicate keys the
last row wins. -/
def detectionLookup (ds : List Detection) (id : ℕ) : Option Bool :=
  (ds.reverse.find? (fun d => d.parcel_id == id)).map
    (fun d => decide ((1 : ℚ) / 2 < d.confidence))

/-- The per-parcel closure of lines 253-268: use the cached verdict when
present, otherwise invoke the external detector (`cv` gives the
confidences of the pools it reports; `cvService.detectPools` catches
transport errors internally and resolves with an empty pool list, so the
oracle is total) and take `pools.length > 0 && pools[0].confidence > 0.5`.
The second component records whether an external call was issued. -/
def cvStep (existing : List Detection) (cv : ℕ → List ℚ) (p : ParcelRec) :
    ParcelRec × Option ℕ :=
  match detectionLookup existing p.id with
  | some b => ({ p with has_pool := some b }, none)
  | none =>
      let hasPool :=
        match cv p.id with
        | [] => false
        | c :: _ => decide ((1 : ℚ) / 2 < c)
      ({ p with has_pool := some hasPool }, some p.id)

/-- The observable outcome of `executeCVAnalysis`: the updated records, the
`has_pool` upserts to `parcels` (lines 274-281), the rows written to the
`cv_detections` store, the parcels for which the external detector was
invoked, and the per-batch progress snapshots. -/
structure CVOutcome where
  results : List ParcelRec
  parcelUpserts : List (ℕ × Bool)
  detectionInserts : List Detection
  externalCalls : List ℕ
  events : List Progress
  deriving Repr, DecidableEq

/-- The batch loop of lines 251-289: process each batch of 5, append the
results, upsert the batch's `has_pool` flags, emit a progress snapshot.
Nothing in the loop body inserts into `cv_detections`, so
`detectionInserts` is only ever carried through. -/
def cvBatchFold (total : ℕ) (existing : List Detection) (cv : ℕ → List ℚ) :
    List (List ParcelRec) → CVOutcome × ℕ → CVOutcome × ℕ
  | [], st => st
  | batch :: rest, (acc, processed) =>
      let recs := batch.map (cvStep existing cv)
      let processedNow := processed + batch.length
      cvBatchFold total existing cv rest
        ({ results := acc.results ++ recs.map Prod.fst
           parcelUpserts := acc.parcelUpserts ++
             (recs.map Prod.fst).filterMap
               (fun q => q.has_pool.map (fun b => (q.id, b)))
           detectionInserts := acc.detectionInserts
           externalCalls := acc.externalCalls ++ recs.filterMap Prod.snd
           events := acc.events ++
             [⟨.cv_analysis, processedNow, total, none, false⟩] },
         processedNow)

/-- Model of `executeCVAnalysis` (lines 228-292). -/
def executeCVAnalysis (parcels : List ParcelRec) (store : List Detection)
    (now : ℤ) (cv : ℕ → List ℚ) : CVOutcome :=
  let existing := cachedDetections store (parcels.map (·.id)) now
  (cvBatchFold parcels.length existing cv (chunksOf 5 parcels)
    (⟨[], [], [], [], []⟩, 0)).1

theorem cvBatchFold_detectionInserts (total : ℕ) (existing : List Detection)
    (cv : ℕ → List ℚ) (L : List (List ParcelRec)) (acc : CVOutcome)
    (processed : ℕ) :
    (cvBatchFold total existing cv L (acc, processed)).1.detectionInserts =
      acc.detectionInserts := by
  induction L generalizing acc processed with
  | nil => rfl
  | cons batch rest ih => rw [cvBatchFold]; exact ih _ _

theorem cvBatchFold_externalCalls (total : ℕ) (existing : List Detection)
    (cv : ℕ → List ℚ) (L : List (List ParcelRec)) (acc : CVOutcome)
    (processed : ℕ) :
    (cvBatchFold total existing cv L (acc, processed)).1.externalCalls =
      acc.externalCalls ++
        L.flatten.filterMap (fun p => (cvStep existing cv p).2) := by
  induction L generalizing acc processed with
  | nil => simp [cvBatchFold]
  | cons batch rest ih =>
      rw [cvBatchFold]
      rw [ih]
      simp [List.filterMap_map, List.append_assoc]
      rfl

/-- A cvStep on a parcel with a cached verdict issues no external call. -/
theorem cvStep_cached (existing : List Detection) (cv : ℕ → List ℚ)
    (p : ParcelRec) (h : (detectionLookup existing p.id).isSome) :
    (cvStep existing cv p).2 = none := by
  obtain ⟨b, hb⟩ := Option.isSome_iff_exists.mp h
  simp [cvStep, hb]

/-- C5 counterexample: one parcel, empty detection store, detector finds no
pool. The stage issues a fresh external call, yet writes **no** entry to
the detection store (only the `parcels.has_pool` upsert happens), so an
identical repeat request — the store unchanged by the first run — invokes
the external detector again within the 7-day window. -/
theorem claim_C5_counterexample :
    (executeCVAnalysis [⟨1, 100, false, none⟩] [] 0 (fun _ => [])).externalCalls
        = [1] ∧
    (executeCVAnalysis [⟨1, 100, false, none⟩] [] 0
        (fun _ => [])).detectionInserts = [] ∧
    (executeCVAnalysis [⟨1, 100, false, none⟩]
        ((executeCVAnalysis [⟨1, 100, false, none⟩] [] 0
          (fun _ => [])).detectionInserts) 0 (fun _ => [])).externalCalls
        = [1] := by
  refine ⟨?_, ?_, ?_⟩ <;>
    simp [executeCVAnalysis, cvBatchFold, chunksOf, cachedDetections,
      detectionLookup, cvStep]

/-- C5 (amended): after a fresh detection the cv_analysis stage persists
only the parcel's `has_pool` flag; it never writes a row to the
`cv_detections` store, so a repeat request within the validity window
re-invokes the external detector unless a detection row was inserted by
something outside this stage (e.g. seed data). When such a row **is**
already present and valid, the parcel is resolved from the cache and no
external call is issued for it. -/
theorem claim_C5_amended (parcels : List ParcelRec) (store : List Detection)
    (now : ℤ) (cv : ℕ → List ℚ) :
    (executeCVAnalysis parcels store now cv).detectionInserts = [] ∧
    (∀ p ∈ parcels,
      (detectionLookup (cachedDetections store (parcels.map (·.id)) now)
          p.id).isSome →
        p.id ∉ (executeCVAnalysis parcels store now cv).externalCalls) := by
  constructor
  · unfold executeCVAnalysis
    rw [cvBatchFold_detectionInserts]
  · intro p hp hcache
    unfold executeCVAnalysis
    rw [cvBatchFold_externalCalls]
    simp only [List.nil_append, chunksOf_flatten, List.mem_filterMap]
    rintro ⟨q, hq, hstep⟩
    by_cases hid : q.id = p.id
    · rw [cvStep_cached _ cv q (hid ▸ hcache)] at hstep
      exact Option.noConfusion hstep
    · unfold cvStep at hstep
      rcases hL : detectionLookup
          (cachedDetections store (parcels.map (·.id)) now) q.id with _ | b
      · rw [hL] at hstep
        simp only [Option.some_inj] at hstep
        exact hid hstep
      · rw [hL] at hstep
        exact Option.noConfusion hstep

/-- C5 amended witness: with a valid "pool" detection row already in the
store, the stage issues no external call for that parcel. -/
theorem claim_C5_amended_witness :
    (1 : ℕ) ∉ (executeCVAnalysis [⟨1, 100, false, none⟩] [⟨1, "pool", 1, 0⟩]
      0 (fun _ => [])).externalCalls :=
  (claim_C5_amended [⟨1, 100, false, none⟩] [⟨1, "pool", 1, 0⟩] 0
      (fun _ => [])).2
    ⟨1, 100, false, none⟩ (by simp)
    (by norm_num [detectionLookup, cachedDetections, CACHE_TTL_MS,
      List.find?])

/-! The llm_analysis stage (`executeLLMAnalysis`, lines 333-418). -/

/-- The fields of `llmService.analyzeParcel`'s response consulted by the
loop (provider / model / token count feed only the usage record, whose
rows mirror the verdict buffer one-to-one and are elided). -/
structure LLMResult where
  qualifies : Bool
  cost : ℚ
  deriving Repr, DecidableEq

/-- A `{id, qualifies}` parcel-analysis update row (rationale elided). -/
structure Verdict where
  id : ℕ
  qualifies : Bool
  deriving Repr, DecidableEq

/-- The observable outcome of `executeLLMAnalysis`: the parcels for which
an adjudication call was issued (in order), the verdict rows flushed to
storage (in flush order), the final cumulative cost, and the progress
snapshots emitted. The outcome type has no error variant because the loop
catches per-parcel errors (line 398) and `break` is not an error: the
stage always returns normally. -/
structure LLMOutcome where
  calls : List ℕ
  flushedVerdicts : List Verdict
  totalCost : ℚ
  events : List Progress
  deriving Repr, DecidableEq

/-- The `for (const parcel of sortedEdgeCases)` loop of lines 354-408 with
the mutable state made explicit: `processed`, `totalCost`, the pending
`updates` buffer, the verdicts already flushed, the calls issued, and the
events emitted. `llm` is the adjudication oracle; `none` models a rejected
call (caught at line 398: `processed` incremented, nothing recorded, no
cost accrued). The budget check of lines 356-359 `break`s out of the loop;
a flush happens every 5 buffered updates or when `processed` reaches the
total (lines 384-389); lines 404-408 flush whatever is still pending after
the loop. -/
def llmLoop (llm : ℕ → Option LLMResult) (budget : ℚ) (totalLen : ℕ) :
    List ParcelRec → ℕ → ℚ → List Verdict → List Verdict → List ℕ →
      List Progress → LLMOutcome
  | [], _, totalCost, updates, flushed, calls, events =>
      ⟨calls, flushed ++ updates, totalCost, events⟩
  | p :: rest, processed, totalCost, updates, flushed, calls, events =>
      if budget ≤ totalCost then
        ⟨calls, flushed ++ updates, totalCost, events⟩
      else
        match llm p.id with
        | none =>
            llmLoop llm budget totalLen rest (processed + 1) totalCost updates
              flushed (calls ++ [p.id]) events
        | some r =>
            let updates' := updates ++ [⟨p.id, r.qualifies⟩]
            let totalCost' := totalCost + r.cost
            let processed' := processed + 1
            let events' := events ++
              [⟨.llm_analysis, processed', totalLen, none, false⟩]
            if 5 ≤ updates'.length ∨ processed' = totalLen then
              llmLoop llm budget totalLen rest processed' totalCost' []
                (flushed ++ updates') (calls ++ [p.id]) events'
            else
              llmLoop llm budget totalLen rest processed' totalCost' updates'
                flushed (calls ++ [p.id]) events'

/-- Model of `prioritizeEdgeCases` (lines 411-418): stable ascending sort by
distance of `rear_free_sqft` from the threshold (JS `Array.sort` with the
comparator `aDistance - bDistance` is stable). -/
def prioritizeEdgeCases (edgeCases : List ParcelRec) (threshold : ℚ) :
    List ParcelRec :=
  edgeCases.mergeSort (fun a b =>
    decide (mathAbs (a.rear_free_sqft - threshold) ≤
      mathAbs (b.rear_free_sqft - threshold)))

/-- Model of `executeLLMAnalysis` (lines 333-409). -/
def executeLLMAnalysis (llm : ℕ → Option LLMResult) (budget : ℚ)
    (edgeCases : List ParcelRec) (threshold : ℚ) : LLMOutcome :=
  let sorted := prioritizeEdgeCases edgeCases threshold
  llmLoop llm budget sorted.length sorted 0 0 [] [] [] []

/-- C1: at any reachable state of the adjudication loop where the
cumulative cost has reached or exceeded the budget, the loop issues no
further adjudication call for any remaining edge-case parcel (the call
list is returned unchanged, so no new verdict is written for them and they
retain whatever verdict they had), every verdict computed before
exhaustion is flushed to storage (the rows already flushed followed by the
pending buffer — exactly what lines 405-408 flush after the `break`), and
the stage returns normally with the cost it had accrued. -/
theorem claim_C1 (llm : ℕ → Option LLMResult) (budget : ℚ) (totalLen : ℕ)
    (rest : List ParcelRec) (processed : ℕ) (totalCost : ℚ)
    (updates flushed : List Verdict) (calls : List ℕ)
    (events : List Progress) (h : budget ≤ totalCost) :
    llmLoop llm budget totalLen rest processed totalCost updates flushed
        calls events =
      ⟨calls, flushed ++ updates, totalCost, events⟩ := by
  cases rest with
  | nil => rfl
  | cons p t => simp [llmLoop, if_pos h]

/-- C1 witness: budget 1 already exceeded by cost 2 with one edge case
remaining, one verdict flushed earlier and one still pending: no further
call, both verdicts preserved. -/
theorem claim_C1_witness :
    llmLoop (fun _ => some ⟨true, 1⟩) 1 3 [⟨9, 0, true, none⟩] 2 2
        [⟨5, false⟩] [⟨3, true⟩] [3, 5] [] =
      ⟨[3, 5], [⟨3, true⟩, ⟨5, false⟩], 2, []⟩ := by
  have h := claim_C1 (fun _ => some ⟨true, 1⟩) 1 3 [⟨9, 0, true, none⟩] 2 2
    [⟨5, false⟩] [⟨3, true⟩] [3, 5] [] (by norm_num)
  simpa using h

/-! The sql_filter stage (`executeSQLFiltering`, lines 107-146). -/

/-- Fate of the on-demand `realDataService.fetchParcelsForArea` call. -/
inductive FetchOutcome where
  | ok
  | fail
  deriving Repr, DecidableEq

/-- External I/O events of the stage, in issue order. -/
inductive SqlEvent where
  | countQuery
  | enrichFetch (outcome : FetchOutcome)
  | candidateQuery
  deriving Repr, DecidableEq

/-- Environment of one `executeSQLFiltering` run: the result of the
existence-count query (`none` models a query error, which
`getExistingParcelsCount` maps to 0 at lines 461-464), the fate of the
on-demand external parcel fetch, the candidate query's result (`error`
models the `if (error) throw error` of line 135), and the rear-yard RPC
oracle. -/
structure SqlEnv where
  countOutcome : Option ℕ
  fetchOutcome : FetchOutcome
  queryResult : Except String (List StoredParcel)
  rpc : ℕ → RpcOutcome

/-- Model of `getExistingParcelsCount` (lines 455-467): the count, or 0 on error. -/
def effectiveCount (env : SqlEnv) : ℕ :=
  match env.countOutcome with
  | none => 0
  | some n => n

/-- Model of `executeSQLFiltering` (lines 107-146): count the parcels in the AOI;
if fewer than 10, attempt the on-demand fetch **before** the candidate
query, swallowing any fetch failure (the `try/catch` of lines 117-121);
run the candidate query, propagating its error (line 135); return `[]`
when it matches nothing (lines 137-140), otherwise the rear-yard stage's
output. Returns the I/O trace together with the stage result. -/
def executeSQLFiltering (env : SqlEnv) (filters : Filters) :
    List SqlEvent × Except String (List ParcelRec) :=
  let pre :=
    if effectiveCount env < 10 then
      [SqlEvent.countQuery, SqlEvent.enrichFetch env.fetchOutcome]
    else [SqlEvent.countQuery]
  let events := pre ++ [SqlEvent.candidateQuery]
  match env.queryResult with
  | .error e => (events, .error e)
  | .ok parcels =>
      if parcels.isEmpty then (events, .ok [])
      else
        (events,
          .ok (calculateRearYardsInBatches parcels env.rpc filters.minRearSqft))

/-- C7: when the store holds fewer than 10 parcels in the AOI, the
enrichment fetch is issued after the count query and before the candidate
query; the stage result is identical whether the fetch fails or succeeds
(fetch failure is swallowed and the search proceeds on existing data);
a candidate-query failure aborts the stage with that error; and a
successful candidate query yields a normal result regardless of the fetch
outcome. -/
theorem claim_C7 (env : SqlEnv) (filters : Filters)
    (h : effectiveCount env < 10) :
    (executeSQLFiltering env filters).1 =
      [.countQuery, .enrichFetch env.fetchOutcome, .candidateQuery] ∧
    (executeSQLFiltering env filters).2 =
      (executeSQLFiltering { env with fetchOutcome := .ok } filters).2 ∧
    (∀ e, env.queryResult = .error e →
      (executeSQLFiltering env filters).2 = .error e) ∧
    (∀ ps, env.queryResult = .ok ps →
      ∃ res, (executeSQLFiltering env filters).2 = .ok res) := by
  obtain ⟨c, f, q, r⟩ := env
  cases q with
  | error e0 =>
      refine ⟨?_, ?_, ?_, ?_⟩
      · simp [executeSQLFiltering, if_pos h]
      · simp [executeSQLFiltering]
      · intro e he
        simp only [Except.error.injEq] at he
        subst he
        simp [executeSQLFiltering]
      · intro ps hps
        exact absurd hps (by simp)
  | ok ps0 =>
      refine ⟨?_, ?_, ?_, ?_⟩
      · by_cases hempty : ps0.isEmpty <;>
          simp [executeSQLFiltering, if_pos h, hempty]
      · by_cases hempty : ps0.isEmpty <;>
          simp [executeSQLFiltering, hempty]
      · intro e he
        exact absurd he (by simp)
      · intro ps hps
        simp only [Except.ok.injEq] at hps
        subst hps
        cases ps0 with
        | nil => exact ⟨[], by simp [executeSQLFiltering]⟩
        | cons p ps' =>
            exact ⟨calculateRearYardsInBatches (p :: ps') r filters.minRearSqft,
              by simp [executeSQLFiltering]⟩

/-- C7 witness: 3 existing parcels (< 10), a failing fetch, and a
candidate query returning no rows: the fetch is attempted before the
candidate query and the stage still completes. -/
theorem claim_C7_witness :
    (executeSQLFiltering ⟨some 3, .fail, .ok [], fun _ => .throws⟩
        ⟨500, none⟩).1 =
      [.countQuery, .enrichFetch .fail, .candidateQuery] :=
  (claim_C7 ⟨some 3, .fail, .ok [], fun _ => .throws⟩ ⟨500, none⟩
    (by norm_num [effectiveCount])).1

/-! Top-level `executeSearch` (lines 26-105). -/

/-- Environment of a whole search run: the sql_filter-stage environment,
the detection store and clock, the external CV and LLM oracles, the
configured `LLM_BUDGET_PER_SEARCH`, and the final re-read of the parcel
records (`getFinalResults`, lines 574-597; `error` models its
`if (error) throw error`). -/
structure SearchEnv where
  sql : SqlEnv
  store : List Detection
  now : ℤ
  cv : ℕ → List ℚ
  llm : ℕ → Option LLMResult
  budget : ℚ
  finalRead : List ℕ → Except String (List ParcelRec)

/-- The observable outcome of `executeSearch`: the progress snapshots in
emission order, the external detection calls, the rows written to the
detection store, and the adjudication calls. -/
structure SearchRun where
  events : List Progress
  cvCalls : List ℕ
  detectionInserts : List Detection
  llmCalls : List ℕ
  deriving Repr, DecidableEq

/-- Model of `executeSearch` (lines 26-105): emit the initial sql_filter snapshot,
run the sql_filter stage (its thrown error reaching the catch of lines
95-104, which emits an `error` snapshot), emit the stage-done snapshot;
on zero parcels short-circuit to `complete` with `results: []` (lines
49-58); otherwise run cv_analysis, identify edge cases, run llm_analysis
only when the edge-case set is non-empty (lines 73-82), re-read the final
records and emit `complete` — a thrown re-read error again reaching the
catch. -/
def executeSearch (env : SearchEnv) (filters : Filters) : SearchRun :=
  let p0 : Progress := ⟨.sql_filter, 0, 0, none, false⟩
  match executeSQLFiltering env.sql filters with
  | (_, .error _) => ⟨[p0, ⟨.error, 0, 0, none, true⟩], [], [], []⟩
  | (_, .ok sqlResults) =>
      let p1 : Progress :=
        ⟨.sql_filter, sqlResults.length, sqlResults.length, none, false⟩
      if sqlResults.isEmpty then
        ⟨[p0, p1, ⟨.complete, 0, 0, some [], false⟩], [], [], []⟩
      else
        let pcv : Progress := ⟨.cv_analysis, 0, sqlResults.length, none, false⟩
        let cvOut := executeCVAnalysis sqlResults env.store env.now env.cv
        let edges := identifyEdgeCases cvOut.results filters
        let llmOut :=
          if edges.isEmpty then (⟨[], [], 0, []⟩ : LLMOutcome)
          else executeLLMAnalysis env.llm env.budget edges filters.minRearSqft
        let pllm : List Progress :=
          if edges.isEmpty then []
          else ⟨.llm_analysis, 0, edges.length, none, false⟩ :: llmOut.events
        match env.finalRead (sqlResults.map (·.id)) with
        | .error _ =>
            ⟨[p0, p1, pcv] ++ cvOut.events ++ pllm ++
                [⟨.error, 0, 0, none, true⟩],
              cvOut.externalCalls, cvOut.detectionInserts, llmOut.calls⟩
        | .ok finalResults =>
            ⟨[p0, p1, pcv] ++ cvOut.events ++ pllm ++
                [⟨.complete, finalResults.length, finalResults.length,
                  some finalResults, false⟩],
              cvOut.externalCalls, cvOut.detectionInserts, llmOut.calls⟩

/-- C3: when the sql_filter stage yields zero parcels, the search emits
exactly the initial sql_filter snapshot, the sql_filter completion
snapshot and a `complete` snapshot with an empty result list — so no
cv_analysis and no llm_analysis snapshot is ever emitted — and issues no
obstacle-detection call and no adjudication call. -/
theorem claim_C3 (env : SearchEnv) (filters : Filters)
    (h : (executeSQLFiltering env.sql filters).2 = .ok []) :
    executeSearch env filters =
      ⟨[⟨.sql_filter, 0, 0, none, false⟩, ⟨.sql_filter, 0, 0, none, false⟩,
        ⟨.complete, 0, 0, some [], false⟩], [], [], []⟩ ∧
    ∀ p ∈ (executeSearch env filters).events,
      p.stage ≠ .cv_analysis ∧ p.stage ≠ .llm_analysis := by
  have hmain : executeSearch env filters =
      ⟨[⟨.sql_filter, 0, 0, none, false⟩, ⟨.sql_filter, 0, 0, none, false⟩,
        ⟨.complete, 0, 0, some [], false⟩], [], [], []⟩ := by
    unfold executeSearch
    rcases hx : executeSQLFiltering env.sql filters with ⟨evs, res⟩
    rw [hx] at h
    simp only at h
    subst h
    simp
  refine ⟨hmain, ?_⟩
  intro p hp
  rw [hmain] at hp
  simp only [List.mem_cons, List.not_mem_nil, or_false] at hp
  rcases hp with h1 | h1 | h1 <;> subst h1 <;> exact ⟨by decide, by decide⟩

/-- C3 witness: a candidate query matching nothing short-circuits the
search to `complete` with an empty result list. -/
theorem claim_C3_witness :
    executeSearch
        ⟨⟨some 20, .ok, .ok [], fun _ => .throws⟩, [], 0, fun _ => [],
          fun _ => none, 1, fun _ => .ok []⟩ ⟨500, none⟩ =
      ⟨[⟨.sql_filter, 0, 0, none, false⟩, ⟨.sql_filter, 0, 0, none, false⟩,
        ⟨.complete, 0, 0, some [], false⟩], [], [], []⟩ :=
  (claim_C3
    ⟨⟨some 20, .ok, .ok [], fun _ => .throws⟩, [], 0, fun _ => [],
      fun _ => none, 1, fun _ => .ok []⟩ ⟨500, none⟩
    (by simp [executeSQLFiltering])).1

end BackyardBuilder
